import Mathlib

/-!
Verification development for `premise/marginal_mixes.py` (consequential
marginal-mix computation, `consequential_method` and its helpers).

The Python source operates on xarray `DataArray`s of IEEE floats.  We embed
it shallowly over `ℚ`, treating float arithmetic as exact rational
arithmetic:

* `data` (the caller's IAM array) is an `IAMData`: a list of technology
  labels, a region count, a sorted list of sample years, and a value table
  indexed by (technology index, region index, year index);
* `data_full = data.interp(year=range(min, max + 1))` is embedded by linear
  interpolation (`interpPoints`) over the sample points, evaluated on
  demand; the in-place zeroing done by `remove_constrained_suppliers`
  (which blanks a technology's whole slice) is carried as a flag on the
  accessor (`dfVal`);
* numpy `.astype(int)` and Python `int()` are truncation toward zero
  (`truncQ`); numpy `.round(3)` is round-half-to-even at three decimals
  (`round3`);
* the IEEE NaN entries produced by the final unguarded renormalization
  (`0/0` when the filtered sum of a region is zero) are embedded as
  `Option.none` (`finalize`);
* places where the source produces IEEE NaN/inf mid-pipeline and then feeds
  it into `.astype(int)` (undefined behavior), divides by a zero-width
  window, or raises an uncaught xarray `KeyError` (selecting a year outside
  the interpolated range), are embedded as `Except.error` with a
  distinguishing message; theorems carry hypotheses keeping runs away from
  these guards and witnesses show the hypotheses are satisfiable.

Arithmetic on `ℚ` is written with `qadd`/`qsub`/`qmul`/`qdiv`/`qsum`, which
are definitionally transparent wrappers computing through `Rat.divInt`
(`Rat.add` etc. are `@[irreducible]` in this toolchain, which would block
kernel evaluation of concrete runs); the bridge lemmas `qadd_eq` … `qsum_eq`
below prove they are exactly the field operations of `ℚ`.
-/

/-- Addition on `ℚ` through `Rat.divInt`; equals `x + y` (lemma `qadd_eq`). -/
def qadd (x y : ℚ) : ℚ :=
  Rat.divInt (x.num * (y.den : ℤ) + y.num * (x.den : ℤ)) ((x.den : ℤ) * (y.den : ℤ))

/-- Subtraction on `ℚ` through `Rat.divInt`; equals `x - y` (lemma `qsub_eq`). -/
def qsub (x y : ℚ) : ℚ :=
  Rat.divInt (x.num * (y.den : ℤ) - y.num * (x.den : ℤ)) ((x.den : ℤ) * (y.den : ℤ))

/-- Multiplication on `ℚ` through `Rat.divInt`; equals `x * y` (lemma `qmul_eq`). -/
def qmul (x y : ℚ) : ℚ :=
  Rat.divInt (x.num * y.num) ((x.den : ℤ) * (y.den : ℤ))

/-- Division on `ℚ` through `Rat.divInt`; equals `x / y` (lemma `qdiv_eq`),
with Lean's `x / 0 = 0` convention on the diagonal the guards never reach. -/
def qdiv (x y : ℚ) : ℚ :=
  Rat.divInt (x.num * (y.den : ℤ)) ((x.den : ℤ) * y.num)

/-- Sum of a list of rationals; equals `List.sum` (lemma `qsum_eq`). -/
def qsum (l : List ℚ) : ℚ := l.foldr qadd 0

/-- Truncation toward zero of a rational: numpy's `.astype(int)` and
Python's `int()` on a float. -/
def truncQ (q : ℚ) : ℤ := q.num.tdiv (q.den : ℤ)

/-- Floor of a rational via flooring integer division. -/
def floorQ (q : ℚ) : ℤ := Int.fdiv q.num (q.den : ℤ)

/-- Round-half-to-even to the nearest integer, numpy's rounding rule. -/
def roundHalfEven (x : ℚ) : ℤ :=
  let n := floorQ x
  let f := qsub x ((n : ℤ) : ℚ)
  if f < mkRat 1 2 then n
  else if mkRat 1 2 < f then n + 1
  else if n % 2 = 0 then n else n + 1

/-- numpy `.round(3)`: round half to even at the third decimal. -/
def round3 (q : ℚ) : ℚ := qdiv ((roundHalfEven (qmul q 1000) : ℤ) : ℚ) 1000

/-- Elementwise product then sum: `(a * b).sum()` for equal-length vectors. -/
def dotQ (a b : List ℚ) : ℚ := qsum (List.zipWith qmul a b)

/-- `fetch_avg_leadtime(leadtime, shares)`:
`(shares * leadtime).sum().astype(int)`. -/
def fetch_avg_leadtime (leadtime shares : List ℚ) : ℤ :=
  truncQ (dotQ shares leadtime)

/-- `fetch_avg_lifetime(lifetime, shares)`:
`(shares * lifetime).sum().astype(int) ... or 30` — the Python `or`
replaces a zero (falsy) result by 30. -/
def fetch_avg_lifetime (lifetime shares : List ℚ) : ℤ :=
  let n := truncQ (dotQ shares lifetime)
  if n = 0 then 30 else n

/-- `fetch_capital_replacement_rates(lifetime, data)`: elementwise
`-1 / lifetime * data`. -/
def fetch_capital_replacement_rates (lifetime dataAtYear : List ℚ) : List ℚ :=
  List.zipWith (fun l v => qmul (qdiv (-1) l) v) lifetime dataAtYear

/-- `fetch_avg_capital_replacement_rate(avg_lifetime, data)`:
`-1 / avg_lifetime * data.sum(dim="variables") ... or 0.0`; the `or 0.0` is
the identity on exact rationals (it only rewrites a float `-0.0`). -/
def fetch_avg_capital_replacement_rate (avgLifetime : ℤ) (total : ℚ) : ℚ :=
  qmul (qdiv (-1) ((avgLifetime : ℤ) : ℚ)) total

/-- The caller's IAM array: technology labels, number of regions, strictly
increasing sample years, and values indexed by (tech index, region index,
year index). -/
structure IAMData where
  techs : List String
  numRegions : Nat
  years : List ℤ
  val : Nat → Nat → Nat → ℚ

/-- `min(data.year.values)` (the years are kept sorted, as xarray data is). -/
def minYear (d : IAMData) : ℤ := d.years.headD 0

/-- `max(data.year.values)`. -/
def maxYear (d : IAMData) : ℤ := d.years.getLastD 0

/-- The (year, value) sample points of one technology in one region. -/
def series (d : IAMData) (t r : Nat) : List (ℤ × ℚ) :=
  d.years.enum.map (fun p => (p.2, d.val t r p.1))

/-- Piecewise-linear interpolation through sorted sample points: the
embedding of `data.interp(year=years_to_interp_for)` evaluated at one
integer year inside the sample range. -/
def interpPoints : List (ℤ × ℚ) → ℤ → ℚ
  | [], _ => 0
  | [(_, v)], _ => v
  | (t1, v1) :: (t2, v2) :: rest, y =>
    if y ≤ t2 then
      qadd v1 (qdiv (qmul (qsub v2 v1) (((y - t1 : ℤ)) : ℚ)) (((t2 - t1 : ℤ)) : ℚ))
    else interpPoints ((t2, v2) :: rest) y

/-- Value of the interpolated array `data_full` at an integer year. -/
def fullVal (d : IAMData) (t r : Nat) (y : ℤ) : ℚ :=
  interpPoints (series d t r) y

/-- `tech_to_ignore` of `remove_constrained_suppliers`. -/
def tech_to_ignore : List String := ["CHP", "biomethane"]

/-- Does `pat` occur at the head of `s`? -/
def headMatches : List Char → List Char → Bool
  | [], _ => true
  | _ :: _, [] => false
  | p :: ps, c :: cs => p == c && headMatches ps cs

/-- Does `pat` occur anywhere in `s`? -/
def occursIn (pat : List Char) : List Char → Bool
  | [] => headMatches pat []
  | c :: cs => headMatches pat (c :: cs) || occursIn pat cs

/-- Python's substring test `pat in s`. -/
def containsSub (s pat : String) : Bool := occursIn pat.toList s.toList

/-- A technology whose label contains a constrained keyword; its whole
slice is zeroed by `remove_constrained_suppliers`. -/
def isConstrained (name : String) : Bool :=
  tech_to_ignore.any (fun x => containsSub name x)

/-- Value of the working array `data_full` at a year, after the in-place
`remove_constrained_suppliers` zeroing has (when `removed = true`) been
applied.  Zeroing a technology's whole slice commutes with interpolation,
so it is carried as a flag on the accessor. -/
def dfVal (d : IAMData) (removed : Bool) (t r : Nat) (y : ℤ) : ℚ :=
  if removed && isConstrained (d.techs.getD t "") then 0 else fullVal d t r y

/-- Regional total over technologies:
`data_full.sel(...).sum(dim="variables")`. -/
def sumTechs (d : IAMData) (removed : Bool) (r : Nat) (y : ℤ) : ℚ :=
  qsum ((List.range d.techs.length).map (fun t => dfVal d removed t r y))

/-- Production shares of the technologies of one region at one year:
`data_full.sel(year=y) / data_full.sel(year=y).sum(dim="variables")`. -/
def regionShares (d : IAMData) (removed : Bool) (r : Nat) (y : ℤ) : List ℚ :=
  (List.range d.techs.length).map
    (fun t => qdiv (dfVal d removed t r y) (sumTechs d removed r y))

/-- `fetch_volume_change(data, start_year, end_year)`. -/
def fetch_volume_change (d : IAMData) (removed : Bool) (r : Nat)
    (s e : ℤ) : ℚ :=
  qdiv (qsub (sumTechs d removed r e) (sumTechs d removed r s)) (((e - s : ℤ)) : ℚ)

/-- The options dictionary read at the top of `consequential_method`,
with the source's defaults. -/
structure MethodArgs where
  range_time : ℤ := 0
  duration : ℤ := 0
  foresight : Bool := false
  lead_time : Bool := false
  capital_repl_rate : Bool := false
  measurement : ℤ := 1
  weighted_slope_start : ℚ := mkRat 3 4
  weighted_slope_end : ℚ := 1

/-- The key set of the `time_parameters` dictionary (the source lists the
key `(True, False, False, True)` twice; the second entry overwrites the
first, leaving this set). -/
def startEndKeys : List (Bool × Bool × Bool × Bool) :=
  [(false, false, false, false), (false, false, true, true),
   (false, false, false, true), (true, false, false, true),
   (true, false, true, false), (true, false, true, true),
   (true, true, false, false), (true, true, true, false),
   (true, true, false, true), (true, true, true, true)]

/-- The lookup `time_parameters[(foresight, capital_repl_rate, lead_time,
measurement)]` succeeds iff the tuple equals a key.  The source passes the
raw `measurement` integer against keys whose fourth component is a Python
bool, and `True == 1`, `False == 0`: the lookup can only succeed when
`measurement` is 0 or 1. -/
def startEndKeyFound (f c l : Bool) (m : ℤ) : Bool :=
  (m == 0 || m == 1) && startEndKeys.contains (f, c, l, m == 1)

/-- The `start_avg`/`end_avg` entries of `time_parameters`, looked up at key
`(bool(range_time), bool(duration), foresight, lead_time)`.  Only the two
keys below carry these entries; every other key combination raises the
wrapped `KeyError` (either because the key is absent or because the entry
lacks `start_avg`).  Note the source computes the second component with
`fetch_avg_lifetime(lifetime=leadtime, shares=shares)`: the LEAD-time
vector is fed to the lifetime averaging. -/
def avg_window (year avgLead avgLifeOfLead : ℤ) :
    Bool × Bool × Bool × Bool → Option (ℤ × ℤ)
  | (false, false, false, false) => some (year, year + avgLifeOfLead)
  | (false, false, true, true) => some (year - avgLead, year + avgLifeOfLead)
  | _ => none

/-- The averaging-window key `(bool(range_time), bool(duration), foresight,
lead_time)`. -/
def avgKey (a : MethodArgs) : Bool × Bool × Bool × Bool :=
  (!(a.range_time == 0), !(a.duration == 0), a.foresight, a.lead_time)

/-- The `try` block of `consequential_method` (lines 236–256): both lookups
must succeed, otherwise the wrapped `KeyError` is raised.  On success the
resolved `(avg_start, avg_end)` pair is returned.  The weights of both
averages are the shares at `year` (the first-pass approximation); both the
lead-time average and the "lifetime" average are computed from the
LEAD-time vector, as in the source. -/
def resolvedAvg (d : IAMData) (removed : Bool) (year : ℤ) (a : MethodArgs)
    (lead : List ℚ) (r : Nat) : Option (ℤ × ℤ) :=
  let shares := regionShares d removed r year
  if startEndKeyFound a.foresight a.capital_repl_rate a.lead_time a.measurement then
    avg_window year (fetch_avg_leadtime lead shares)
      (fetch_avg_lifetime lead shares) (avgKey a)
  else none

/-- The integer years of the interpolated range restricted to
`[s, e]` — the rows kept by the two `.where` masks of the regression and
area modes. -/
def windowYears (d : IAMData) (s e : ℤ) : List ℤ :=
  (((List.range ((maxYear d - minYear d).toNat + 1)).map
      (fun i => minYear d + (i : ℤ))).filter
    (fun y => decide (s ≤ y) && decide (y ≤ e)))

/-- Ordinary-least-squares slope of (year, value) points: the degree-1
coefficient of `polyfit(dim="year", deg=1)` over the unmasked rows. -/
def olsSlope (pts : List (ℤ × ℚ)) : ℚ :=
  let n : ℚ := ((pts.length : ℕ) : ℚ)
  let st := qsum (pts.map (fun p => ((p.1 : ℤ) : ℚ)))
  let sv := qsum (pts.map (fun p => p.2))
  let stv := qsum (pts.map (fun p => qmul ((p.1 : ℤ) : ℚ) p.2))
  let stt := qsum (pts.map (fun p => qmul ((p.1 : ℤ) : ℚ) ((p.1 : ℤ) : ℚ)))
  qdiv (qsub (qmul n stv) (qmul st sv)) (qsub (qmul n stt) (qmul st st))

/-- Error message of the wrapped `KeyError` (lines 252–256). -/
def config_err : String :=
  "The combination of range_time, duration, foresight, and lead_time is not possible. Please check your input."

/-- Embeds the uncaught xarray `KeyError` of a `.sel(year=...)` outside the
interpolated range, and the `ValueError` of `min`/`max` on empty years. -/
def sel_err : String := "year not found in interpolated data"

/-- Embeds runs the rational model cannot represent faithfully: a NaN/inf
produced mid-pipeline flowing into `.astype(int)` (undefined behavior), a
zero-width measuring window, or a zero lifetime entry feeding `-1/lifetime`. -/
def nan_err : String := "undefined numeric operation"

/-- Embeds `polyfit` on fewer than two in-window rows (an underdetermined
least-squares fit, platform-defined output in the source). -/
def polyfit_err : String := "polyfit window has fewer than two years"

/-- The measurement dispatch (lines 286–563) for the combinations the
dispatch table lets through (`measurement ∈ {0, 1}`), evaluated on the
working array after the `remove_constrained_suppliers` zeroing (line 280),
over the resolved averaging window `(s, e)`.  The `if` chain mirrors the
source; a `measurement` outside the handled set leaves the zero
initialization of `market_shares` in place. -/
def measureRaw (d : IAMData) (a : MethodArgs) (life : List ℚ) (r : Nat)
    (s e : ℤ) : Except String (List ℚ) :=
  if !a.capital_repl_rate && a.measurement == 0 then
    .ok ((List.range d.techs.length).map
      (fun t => qdiv (qsub (dfVal d true t r e) (dfVal d true t r s)) (((e - s : ℤ)) : ℚ)))
  else if !a.capital_repl_rate && a.measurement == 1 then
    let ys := windowYears d s e
    if ys.length < 2 then .error polyfit_err
    else .ok ((List.range d.techs.length).map
      (fun t => olsSlope (ys.map (fun y => (y, dfVal d true t r y)))))
  else if a.capital_repl_rate && a.measurement == 0 then
    if life.any (fun l => l == 0) then .error nan_err
    else
      let slope := (List.range d.techs.length).map
        (fun t => qdiv (qsub (dfVal d true t r e) (dfVal d true t r s)) (((e - s : ℤ)) : ℚ))
      let caps := fetch_capital_replacement_rates life
        ((List.range d.techs.length).map (fun t => dfVal d true t r s))
      .ok (List.zipWith qsub slope caps)
  else if a.capital_repl_rate && a.measurement == 1 then
    if life.any (fun l => l == 0) then .error nan_err
    else
      let ys := windowYears d s e
      if ys.length < 2 then .error polyfit_err
      else
        let slope := (List.range d.techs.length).map
          (fun t => olsSlope (ys.map (fun y => (y, dfVal d true t r y))))
        let caps := fetch_capital_replacement_rates life
          ((List.range d.techs.length).map (fun t => dfVal d true t r s))
        .ok (List.zipWith qsub slope caps)
  else .ok (List.replicate d.techs.length 0)

/-- `values[values > 0] = 0` then `*= -1` then `/= sum` then `round(3)` then
NaN/inf removal happens before this point; here is the sign filter of the
final block (lines 650–655 resp. 663–666): shrinking markets keep
non-positive entries sign-flipped, growing markets keep non-negative
entries. -/
def filteredShare (shrinking : Bool) (v : ℚ) : ℚ :=
  if shrinking then (if 0 < v then 0 else -v) else (if v < 0 then 0 else v)

/-- The final renormalization (lines 647–669): filter by sign, then divide
by the filtered sum — unguarded.  When the filtered sum is zero every
remaining entry is zero and each float division is `0/0 = NaN`, embedded as
`none`. -/
def finalize (shrinking : Bool) (vs : List ℚ) : List (Option ℚ) :=
  let s := qsum (vs.map (filteredShare shrinking))
  if s = 0 then vs.map (fun _ => none)
  else vs.map (fun v => some (qdiv (filteredShare shrinking v) s))

/-- One pass of the region loop of `consequential_method` up to (and
including) the rounding and NaN/inf cleanup, producing the vector fed to the
final renormalization together with the shrinking-market flag.  `removed`
says whether a previous iteration already ran the in-place
`remove_constrained_suppliers` on the shared working array. -/
def regionRaw (d : IAMData) (removed : Bool) (year : ℤ) (a : MethodArgs)
    (lead life : List ℚ) (r : Nat) : Except String (List ℚ × Bool) :=
  if !(decide (minYear d ≤ year) && decide (year ≤ maxYear d)) then .error sel_err
  else if sumTechs d removed r year = 0 then .error nan_err
  else
    match resolvedAvg d removed year a lead r with
    | none => .error config_err
    | some (s, e) =>
      if !(decide (minYear d ≤ s) && decide (s ≤ maxYear d)) then .error sel_err
      else if sumTechs d removed r s = 0 then .error nan_err
      else if !(decide (minYear d ≤ e) && decide (e ≤ maxYear d)) then .error sel_err
      else if s = e then .error nan_err
      else
        let sharesA := regionShares d removed r s
        let avgLifetime := fetch_avg_lifetime life sharesA
        let avgCap := fetch_avg_capital_replacement_rate avgLifetime (sumTechs d removed r s)
        let vc := fetch_volume_change d removed r s e
        match measureRaw d a life r s e with
        | .error err => .error err
        | .ok raw =>
          let rounded := raw.map round3
          let shrinking := (!a.capital_repl_rate && decide (vc < 0)) ||
            (a.capital_repl_rate && decide (vc < avgCap))
          .ok (rounded, shrinking)

/-- One region's final share vector: the raw measured-and-rounded vector
pushed through the final sign filter and renormalization. -/
def processRegion (d : IAMData) (removed : Bool) (year : ℤ) (a : MethodArgs)
    (lead life : List ℚ) (r : Nat) : Except String (List (Option ℚ)) :=
  match regionRaw d removed year a lead life r with
  | .error err => .error err
  | .ok vsb => .ok (finalize vsb.2 vsb.1)

/-- The region loop; after the first iteration the shared working array has
been zeroed in place, so every later iteration starts with `removed = true`. -/
def runRegions (d : IAMData) (year : ℤ) (a : MethodArgs) (lead life : List ℚ) :
    List Nat → Bool → Except String (List (List (Option ℚ)))
  | [], _ => .ok []
  | r :: rs, removed =>
    match processRegion d removed year a lead life r with
    | .error err => .error err
    | .ok v =>
      match runRegions d year a lead life rs true with
      | .error err => .error err
      | .ok vs => .ok (v :: vs)

/-- `consequential_method(data, year, args)` with the lead-time and lifetime
vectors passed explicitly (the yaml lookup service is an external
collaborator).  The result is one share vector per region, with `none`
embedding an IEEE NaN entry. -/
def consequential_method (d : IAMData) (year : ℤ) (a : MethodArgs)
    (lead life : List ℚ) : Except String (List (List (Option ℚ))) :=
  if d.years.isEmpty then .error sel_err
  else runRegions d year a lead life (List.range d.numRegions) false

/-- The scale factor the dead `capital_repl_rate and measurement == 2`
branch (line 516) applies to the capital-replacement-rate vector:
`((avg_end - avg_start) ^ 2) * 0.5` — in Python `^` on integers is the
bitwise XOR, not squaring. -/
def mode2CapScale (n : ℤ) : ℚ := qmul (((Int.xor n 2 : ℤ)) : ℚ) (mkRat 1 2)

/-- NaN-poisoning addition on option-rationals (IEEE `NaN + x = NaN`). -/
def optAdd : Option ℚ → Option ℚ → Option ℚ
  | some a, some b => some (qadd a b)
  | _, _ => none

/-- `values[values > 0] = 0` on an array that may hold NaN entries
(IEEE `NaN > 0` is false, so NaN entries are kept). -/
def zeroPos : Option ℚ → Option ℚ
  | some v => some (if 0 < v then 0 else v)
  | none => none

/-- Negation, `NaN`-preserving. -/
def optNeg : Option ℚ → Option ℚ := fun o => o.map (fun v => -v)

/-- numpy sum over an array that may hold NaN entries: NaN-poisoning. -/
def optSumQ (l : List (Option ℚ)) : Option ℚ := l.foldr optAdd (some 0)

/-- Division of an entry by the (possibly NaN) regional sum.  On the inputs
this is applied to, entries are non-negative and a zero sum forces every
entry to be zero, so the zero-sum case is exactly `0/0 = NaN`. -/
def optDivBy (s o : Option ℚ) : Option ℚ :=
  match o, s with
  | some v, some sv => if sv = 0 then none else some (qdiv v sv)
  | _, _ => none

/-- One split-year iteration of the dead `measurement == 4` branch without
capital replacement (lines 389–428): `delta` is the year-over-year
difference vector of the split year (the NaN/inf cleanup of lines 396–402
is the identity on rationals).  In the shrinking branch (`volume_change <
0`) the sign filter and renormalization are applied to the ACCUMULATOR
`market_shares`, and the raw split deltas are then added unfiltered; in the
growing branch they are applied to the split deltas. -/
def mode4Step (vc : ℚ) (acc : List (Option ℚ)) (delta : List ℚ) : List (Option ℚ) :=
  if vc < 0 then
    let acc2 := (acc.map zeroPos).map optNeg
    let s := optSumQ acc2
    List.zipWith (fun a q => optAdd a (some q)) (acc2.map (optDivBy s)) delta
  else
    let sp := delta.map (fun v => if v < 0 then 0 else v)
    let s := qsum sp
    List.zipWith optAdd acc (sp.map (fun v => if s = 0 then none else some (qdiv v s)))

/-- The dead `measurement == 4` branch without capital replacement
(lines 385–429): zero-initialized accumulator of `T` technologies, one
`mode4Step` per split year, divided by the window length at the end. -/
def mode4Run (vc : ℚ) (T : Nat) (deltas : List (List ℚ)) (n : ℤ) :
    List (Option ℚ) :=
  ((deltas.foldl (mode4Step vc) (List.replicate T (some 0))).map
    (fun o => o.map (fun v => qdiv v (((n : ℤ)) : ℚ))))

/-- Full-window slope of the dead `measurement == 3` branch (lines 351–360):
`(data[avg_end] - data[avg_start]) / (avg_end - avg_start)` for one
technology's interpolated series `f`. -/
def mode3Slope (f : ℤ → ℚ) (s e : ℤ) : ℚ :=
  qdiv (qsub (f e) (f s)) (((e - s : ℤ)) : ℚ)

/-- The short-slope sub-window of mode 3 (lines 362–367):
`int(avg_start + (avg_end - avg_start) * weighted_slope_start)` and the
same with `weighted_slope_end`. -/
def shortWindow (s e : ℤ) (w0 w1 : ℚ) : ℤ × ℤ :=
  (truncQ (qadd ((s : ℤ) : ℚ) (qmul (((e - s : ℤ)) : ℚ) w0)),
   truncQ (qadd ((s : ℤ) : ℚ) (qmul (((e - s : ℤ)) : ℚ) w1)))

/-- The slope ratio fed to the saturation function in mode 3 (line 373):
`np.where(slope == 0, 0, slope / short_slope)` — a zero full-window slope
is masked to ratio 0 before the division result is consumed. -/
def mode3X (f : ℤ → ℚ) (s e : ℤ) (w0 w1 : ℚ) : ℚ :=
  let slope := mode3Slope f s e
  let sw := shortWindow s e w0 w1
  let shortSlope := qdiv (qsub (f sw.2) (f sw.1)) (((sw.2 - sw.1 : ℤ)) : ℚ)
  if slope = 0 then 0 else qdiv slope shortSlope

/-- The clamp structure of mode 3's saturation (lines 374–379): inside
`(-500, 500)` the smooth logistic-like map is applied (its exact
real-exponential form is abstracted as `smooth`; the theorems below hold
for every `smooth`, in particular for the source's
`2*(exp(x-1)/(1+exp(x-1)) - 0.5)`); outside, the sign. -/
def saturWith (smooth : ℚ → ℚ) (x : ℚ) : ℚ :=
  if -500 < x ∧ x < 500 then smooth x else if x < 0 then -1 else 1

/-- The raw measured value of mode 3 before filtering (line 381):
`slope + slope * split_year`. -/
def mode3RawWith (smooth : ℚ → ℚ) (f : ℤ → ℚ) (s e : ℤ) (w0 w1 : ℚ) : ℚ :=
  let slope := mode3Slope f s e
  qadd slope (qmul slope (saturWith smooth (mode3X f s e w0 w1)))

/-- The two array cells `consequential_method` works with: the caller's
array bound to `data`, and the freshly allocated interpolated array bound
to `data_full` (xarray's `interp` returns a new array, never a view). -/
structure Mem where
  dataCell : IAMData
  fullCell : Nat → Nat → ℤ → ℚ

/-- `data_full = data.interp(year=years_to_interp_for)` (lines 176–179):
allocates the working copy; the caller's cell is untouched. -/
def interpAlloc (d : IAMData) : Mem :=
  ⟨d, fun t r y => fullVal d t r y⟩

/-- `remove_constrained_suppliers` (lines 101–118): in-place zeroing of the
slices of the constrained technologies of the array it is handed. -/
def remove_constrained_suppliers (techs : List String)
    (f : Nat → Nat → ℤ → ℚ) : Nat → Nat → ℤ → ℚ :=
  fun t r y => if isConstrained (techs.getD t "") then 0 else f t r y

/-- Line 280, executed once per region iteration:
`data_full = remove_constrained_suppliers(data_full)` mutates the working
cell only. -/
def zeroStep (m : Mem) : Mem :=
  { m with fullCell := remove_constrained_suppliers m.dataCell.techs m.fullCell }

/-- The region loop viewed through the two cells: each iteration applies the
in-place zeroing pass to the working cell. -/
def regionLoopMem : Nat → Mem → Mem
  | 0, m => m
  | k + 1, m => regionLoopMem k (zeroStep m)

/-- The memory effect of a whole `consequential_method` call: allocate the
interpolated working copy, then run the region loop. -/
def consequentialMem (d : IAMData) : Mem :=
  regionLoopMem d.numRegions (interpAlloc d)

/-- Decidable equality on `Except`, so concrete runs of the model can be
checked by `decide`. -/
instance instDecEqExcept {ε α : Type} [DecidableEq ε] [DecidableEq α] :
    DecidableEq (Except ε α) := fun
  | .error e, .error f => decidable_of_iff (e = f) (by simp)
  | .error _, .ok _ => isFalse (by simp)
  | .ok _, .error _ => isFalse (by simp)
  | .ok a, .ok b => decidable_of_iff (a = b) (by simp)

/-- The property the specification asserts of one region's returned share
vector: every entry is an actual number in `[0, 1]` and the entries sum to
0.0 or to within `1e-3` of 1.0. -/
def sharesVecClaim (v : List (Option ℚ)) : Prop :=
  (∀ o ∈ v, ∃ q : ℚ, o = some q ∧ 0 ≤ q ∧ q ≤ 1) ∧
  ((v.map (fun o => o.getD 0)).sum = 0 ∨ |(v.map (fun o => o.getD 0)).sum - 1| ≤ mkRat 1 1000)

/-- The two-technology scenario of the specification's end-to-end test:
series `A = [100, 120, 140]`, `B = [50, 40, 30]` over years
`[2020, 2021, 2022]`, one region. -/
def exData : IAMData :=
  ⟨["A", "B"], 1, [2020, 2021, 2022],
   fun t _ i =>
     if t = 0 then (if i = 0 then 100 else if i = 1 then 120 else 140)
     else (if i = 0 then 50 else if i = 1 then 40 else 30)⟩

/-- Options of the end-to-end scenario: slope measurement, no capital
replacement, market-average lead time, no foresight. -/
def exArgsM0 : MethodArgs := { measurement := 0 }

/-- A one-region, one-technology market with a constant series: every
growth measurement is zero, so the final filtered sum is zero. -/
def flatData1 : IAMData := ⟨["A"], 1, [2020, 2021, 2022], fun _ _ _ => 100⟩

/-- A one-region, two-technology market, both series constant at 100:
shares are a half each and every growth measurement is zero. -/
def flatData2 : IAMData := ⟨["A", "B"], 1, [2020, 2021, 2022], fun _ _ _ => 100⟩

/-- Options with capital replacement on and the area measurement (mode 2). -/
def exArgsCapM2 : MethodArgs := { capital_repl_rate := true, measurement := 2 }

/-- Options with the split-year measurement (mode 4). -/
def exArgsM4 : MethodArgs := { measurement := 4 }

/-- Options with foresight on but market-average lead time — the
combination `(range_time=0, duration=0, foresight=True, lead_time=False)`
absent from the averaging-window table. -/
def exArgsForesight : MethodArgs := { foresight := true, measurement := 1 }

/-- Options with foresight and individual lead time both on. -/
def exArgsFL : MethodArgs := { foresight := true, lead_time := true, measurement := 0 }

/-- A market containing a cogeneration-tagged technology, for the
supplier-constraint frame theorem. -/
def chpData : IAMData := ⟨["gas CHP", "wind"], 1, [2020], fun _ _ _ => 1⟩

/-- Bridge: `qadd` is addition on `ℚ`. -/
theorem qadd_eq (x y : ℚ) : qadd x y = x + y := by
  have hx : ((x.den : ℤ)) ≠ 0 := Int.natCast_ne_zero.mpr x.den_nz
  have hy : ((y.den : ℤ)) ≠ 0 := Int.natCast_ne_zero.mpr y.den_nz
  calc qadd x y
      = Rat.divInt x.num x.den + Rat.divInt y.num y.den := by
        rw [qadd, Rat.divInt_add_divInt _ _ hx hy]
    _ = x + y := by rw [Rat.num_divInt_den, Rat.num_divInt_den]

/-- Bridge: `qsub` is subtraction on `ℚ`. -/
theorem qsub_eq (x y : ℚ) : qsub x y = x - y := by
  have hx : ((x.den : ℤ)) ≠ 0 := Int.natCast_ne_zero.mpr x.den_nz
  have hy : ((y.den : ℤ)) ≠ 0 := Int.natCast_ne_zero.mpr y.den_nz
  calc qsub x y
      = Rat.divInt x.num x.den - Rat.divInt y.num y.den := by
        rw [qsub, Rat.divInt_sub_divInt _ _ hx hy]
    _ = x - y := by rw [Rat.num_divInt_den, Rat.num_divInt_den]

/-- Bridge: `qmul` is multiplication on `ℚ`. -/
theorem qmul_eq (x y : ℚ) : qmul x y = x * y := by
  calc qmul x y
      = Rat.divInt x.num x.den * Rat.divInt y.num y.den := by
        rw [qmul, Rat.divInt_mul_divInt']
    _ = x * y := by rw [Rat.num_divInt_den, Rat.num_divInt_den]

/-- Bridge: `qdiv` is division on `ℚ`. -/
theorem qdiv_eq (x y : ℚ) : qdiv x y = x / y := by
  unfold qdiv
  exact (Rat.div_def' x y).symm

/-- Bridge: `qsum` is `List.sum` on `ℚ`. -/
theorem qsum_eq (l : List ℚ) : qsum l = l.sum := by
  induction l with
  | nil => rfl
  | cons a t ih => rw [qsum, List.foldr_cons, ← qsum, qadd_eq, ih, List.sum_cons]

/-- Sign-filtered entries are non-negative in both branches. -/
theorem filteredShare_nonneg (b : Bool) (v : ℚ) : 0 ≤ filteredShare b v := by
  unfold filteredShare
  split_ifs with h1 h2 h3 <;> push_neg at * <;> linarith

/-- Summing entry-wise divisions by a common denominator divides the sum. -/
theorem sum_map_div (f : ℚ → ℚ) (s : ℚ) (l : List ℚ) :
    (l.map (fun v => f v / s)).sum = (l.map f).sum / s := by
  induction l with
  | nil => simp
  | cons a t ih => simp [ih, add_div]

/-- Dichotomy of the final renormalization: a region's vector is either
entirely NaN or a genuine share vector with entries in `[0, 1]` summing
exactly to 1. -/
theorem finalize_none_or_claim (b : Bool) (vs : List ℚ) :
    (∀ o ∈ finalize b vs, o = none) ∨ sharesVecClaim (finalize b vs) := by
  by_cases hs : (vs.map (filteredShare b)).sum = 0
  · left
    intro o ho
    simp only [finalize, qsum_eq, if_pos hs] at ho
    obtain ⟨v, _, rfl⟩ := List.mem_map.1 ho
    rfl
  · right
    have hnonneg : ∀ x ∈ vs.map (filteredShare b), 0 ≤ x := by
      intro x hx
      obtain ⟨v, _, rfl⟩ := List.mem_map.1 hx
      exact filteredShare_nonneg b v
    have hsum_nonneg : 0 ≤ (vs.map (filteredShare b)).sum := List.sum_nonneg hnonneg
    have hpos : 0 < (vs.map (filteredShare b)).sum :=
      lt_of_le_of_ne hsum_nonneg (Ne.symm hs)
    have hfin : finalize b vs =
        vs.map (fun v => some (filteredShare b v / (vs.map (filteredShare b)).sum)) := by
      simp only [finalize, qsum_eq, if_neg hs, qdiv_eq]
    constructor
    · intro o ho
      rw [hfin] at ho
      obtain ⟨v, hv, rfl⟩ := List.mem_map.1 ho
      refine ⟨filteredShare b v / (vs.map (filteredShare b)).sum, rfl, ?_, ?_⟩
      · exact div_nonneg (filteredShare_nonneg b v) hsum_nonneg
      · exact (div_le_one hpos).mpr
          (List.single_le_sum hnonneg _ (List.mem_map_of_mem _ hv))
    · right
      rw [hfin]
      simp only [List.map_map, Function.comp_def, Option.getD_some]
      rw [sum_map_div, div_self hs]
      simp [Rat.mkRat_eq_divInt, Rat.divInt_eq_div]

/-- A successful region pass always ends in the final renormalization. -/
theorem processRegion_ok_shape {d : IAMData} {rm : Bool} {year : ℤ}
    {a : MethodArgs} {lead life : List ℚ} {r : Nat} {v : List (Option ℚ)}
    (h : processRegion d rm year a lead life r = .ok v) :
    ∃ b vs, v = finalize b vs := by
  unfold processRegion at h
  cases hr : regionRaw d rm year a lead life r with
  | error e => rw [hr] at h; exact absurd h (by simp)
  | ok vsb =>
    rw [hr] at h
    exact ⟨vsb.2, vsb.1, (Except.ok.inj h).symm⟩

/-- Every region vector of a successful run is a `finalize` output. -/
theorem runRegions_ok_mem {d : IAMData} {year : ℤ} {a : MethodArgs}
    {lead life : List ℚ} :
    ∀ (rl : List Nat) (rm : Bool) (res : List (List (Option ℚ))),
      runRegions d year a lead life rl rm = .ok res →
      ∀ v ∈ res, ∃ b vs, v = finalize b vs := by
  intro rl
  induction rl with
  | nil =>
    intro rm res h v hv
    unfold runRegions at h
    cases Except.ok.inj h
    simp at hv
  | cons r rs ih =>
    intro rm res h v hv
    unfold runRegions at h
    cases hp : processRegion d rm year a lead life r with
    | error e => rw [hp] at h; exact absurd h (by simp)
    | ok v0 =>
      rw [hp] at h
      cases hrr : runRegions d year a lead life rs true with
      | error e => rw [hrr] at h; exact absurd h (by simp)
      | ok vs0 =>
        rw [hrr] at h
        cases Except.ok.inj h
        rcases List.mem_cons.1 hv with rfl | hv2
        · exact processRegion_ok_shape hp
        · exact ih true vs0 hrr v hv2

/-- C1 (amended): for every input array, target year and options on which
`consequential_method` completes, each region's returned share vector
either satisfies the original claimed property — every entry is a number in
`[0, 1]` and the region's sum is 0.0 or within `1e-3` of 1.0
(`sharesVecClaim`) — or is entirely NaN (embedded `none`), the case the
counterexample below exhibits. -/
theorem C1_region_share_dichotomy (d : IAMData) (year : ℤ) (a : MethodArgs)
    (lead life : List ℚ) (res : List (List (Option ℚ)))
    (h : consequential_method d year a lead life = .ok res) :
    ∀ v ∈ res, (∀ o ∈ v, o = none) ∨ sharesVecClaim v := by
  unfold consequential_method at h
  by_cases he : d.years.isEmpty
  · rw [if_pos he] at h; exact absurd h (by simp)
  · rw [if_neg he] at h
    intro v hv
    obtain ⟨b, vs, rfl⟩ := runRegions_ok_mem _ _ _ h v hv
    exact finalize_none_or_claim b vs

/-- C1 witness: the hypotheses of the dichotomy theorem are satisfiable —
the end-to-end scenario completes and its single region satisfies the
dichotomy. -/
theorem C1_region_share_dichotomy_witness :
    (∀ o ∈ [some (1 : ℚ), some 0], o = none) ∨ sharesVecClaim [some (1 : ℚ), some 0] :=
  C1_region_share_dichotomy exData 2020 exArgsM0 [2, 2] [30, 30]
    [[some 1, some 0]] (by decide) [some 1, some 0] (by simp)

/-- C1 counterexample: on a two-technology market with constant series the
method completes, but the region's returned entries are NaN (embedded
`none`), not numbers in `[0, 1]` summing to 0.0 or to within `1e-3` of 1.0:
the claim as stated fails. -/
theorem C1_counterexample_nan_region :
    consequential_method flatData2 2020 exArgsM0 [2, 2] [30, 30] = .ok [[none, none]] ∧
    ¬ sharesVecClaim [none, none] := by
  constructor
  · decide
  · rintro ⟨h1, -⟩
    obtain ⟨q, hq, -⟩ := h1 none (by simp)
    exact Option.noConfusion hq

/-- C2 (amended): whenever the sign-based filtering leaves a region with a
filtered sum of zero, the renormalization is NOT guarded: the division is
performed anyway and every entry of that region's vector becomes NaN
(embedded `none`) — no exception is raised, but the vector is not zeros. -/
theorem C2_zero_filtered_sum_yields_nan_vector (d : IAMData) (rm : Bool)
    (year : ℤ) (a : MethodArgs) (lead life : List ℚ) (r : Nat)
    (vs : List ℚ) (b : Bool)
    (h : regionRaw d rm year a lead life r = .ok (vs, b))
    (hsum : qsum (vs.map (filteredShare b)) = 0) :
    processRegion d rm year a lead life r = .ok (vs.map (fun _ => none)) := by
  unfold processRegion
  rw [h]
  simp only [finalize]
  rw [if_pos hsum]

/-- C2 witness: on the constant one-technology market the raw region pass
yields the zero vector with a zero filtered sum, and the region's returned
vector is the NaN vector. -/
theorem C2_zero_filtered_sum_yields_nan_vector_witness :
    processRegion flatData1 false 2020 exArgsM0 [2] [30] 0 = .ok [none] :=
  C2_zero_filtered_sum_yields_nan_vector flatData1 false 2020 exArgsM0 [2] [30] 0
    [0] false (by decide) (by decide)

/-- C2 counterexample: the claim says a zero filtered sum yields an
all-zero share vector; on the constant market the returned entry is NaN
(embedded `none`), which is not the zero share `some 0`. -/
theorem C2_counterexample_not_zeros :
    consequential_method flatData1 2020 exArgsM0 [2] [30] = .ok [[none]] ∧
    (none : Option ℚ) ≠ some 0 := by
  constructor
  · decide
  · simp

/-- C3: on a market with at least one region, a target year inside the data
range and a well-defined regional total, any flag combination whose
averaging-window key is absent from the dispatch table (equivalently, whose
lookup fails — also covering a `measurement` outside `{0, 1}`, which can
never equal a boolean table key) makes `consequential_method` raise the
wrapped `KeyError` naming the invalid combination, instead of applying a
default window. -/
theorem C3_missing_combination_raises (d : IAMData) (year : ℤ)
    (a : MethodArgs) (lead life : List ℚ)
    (h1 : 0 < d.numRegions) (h2 : d.years.isEmpty = false)
    (h3 : minYear d ≤ year) (h4 : year ≤ maxYear d)
    (h5 : sumTechs d false 0 year ≠ 0)
    (h6 : resolvedAvg d false year a lead 0 = none) :
    consequential_method d year a lead life = .error config_err := by
  have hreg0 : regionRaw d false year a lead life 0 = .error config_err := by
    unfold regionRaw
    rw [decide_eq_true h3, decide_eq_true h4]
    simp only [Bool.and_self, Bool.not_true, Bool.false_eq_true, if_false]
    rw [if_neg h5, h6]
  have hpr0 : processRegion d false year a lead life 0 = .error config_err := by
    unfold processRegion
    rw [hreg0]
  obtain ⟨k, hk⟩ : ∃ k, d.numRegions = k + 1 :=
    ⟨d.numRegions - 1, by omega⟩
  unfold consequential_method
  rw [if_neg (by simp [h2]), hk, List.range_succ_eq_map]
  unfold runRegions
  rw [hpr0]

/-- C3 witness: the combination `(range_time=0, duration=0, foresight=True,
lead_time=False)` is absent from the averaging-window table, and on the
end-to-end scenario's data the method raises the configuration error. -/
theorem C3_missing_combination_raises_witness :
    consequential_method exData 2020 exArgsForesight [2, 2] [30, 30] =
      .error config_err :=
  C3_missing_combination_raises exData 2020 exArgsForesight [2, 2] [30, 30]
    (by decide) (by decide) (by decide) (by decide) (by decide) (by decide)

/-- C4: on the end-to-end scenario (series `A = [100, 120, 140]`,
`B = [50, 40, 30]`, years 2020–2022, target year 2020, slope measurement,
no capital replacement, market-average lead time with `avg_leadtime = 2`):
the averaging window resolves to `[2020, 2022]`, the measured slope is 20
for A and −10 for B, the volume change is 10 > 0, and the returned shares
are 1.0 for A and 0 for B. -/
theorem C4_end_to_end_scenario :
    fetch_avg_leadtime [2, 2] (regionShares exData false 0 2020) = 2 ∧
    resolvedAvg exData false 2020 exArgsM0 [2, 2] 0 = some (2020, 2022) ∧
    measureRaw exData exArgsM0 [30, 30] 0 2020 2022 = .ok [20, -10] ∧
    fetch_volume_change exData false 0 2020 2022 = 10 ∧
    (0 : ℚ) < 10 ∧
    consequential_method exData 2020 exArgsM0 [2, 2] [30, 30] =
      .ok [[some 1, some 0]] := by
  refine ⟨?_, ?_, ?_, ?_, ?_, ?_⟩ <;> decide

/-- C5: with `capital_replacement_rate` on and `measurement = 2` the method
never reaches the area branch — the start/end dispatch looks up the raw
integer 2 against boolean keys and raises the wrapped `KeyError` — and the
(dead) branch's scale factor `((avg_end - avg_start) ^ 2) * 0.5` uses
Python's bitwise XOR, giving `(3 ^ 2) * 0.5 = 1/2` for a window of length
3, not half the square `9/2`. -/
theorem C5_mode2_capital_unreachable_and_xor_scale :
    consequential_method exData 2020 exArgsCapM2 [2, 2] [30, 30] =
      .error config_err ∧
    mode2CapScale 3 = mkRat 1 2 ∧
    mode2CapScale 3 ≠ qdiv (qmul 3 3) 2 := by
  refine ⟨?_, ?_, ?_⟩ <;> decide

/-- C6: with `measurement = 4` the method never reaches the split-year
branch — the start/end dispatch looks up the raw integer 4 against boolean
keys and raises the wrapped `KeyError`.  Moreover the (dead) branch body
contradicts the claim: for a shrinking market the sign filter and
renormalization are applied to the zero-initialized accumulator (whose
`0/0` renormalization poisons it with NaN) and the split-year deltas are
added unfiltered, instead of being filtered individually (which would give
`[1, 0]` on deltas `[-5, 3]`). -/
theorem C6_mode4_unreachable_and_accumulator_filter :
    consequential_method exData 2020 exArgsM4 [2, 2] [30, 30] =
      .error config_err ∧
    mode4Run (-1) 2 [[-5, 3]] 1 = [none, none] ∧
    finalize true [(-5 : ℚ), 3] = [some 1, some 0] ∧
    ([none, none] : List (Option ℚ)) ≠ [some 1, some 0] := by
  refine ⟨?_, ?_, ?_, ?_⟩ <;> decide

/-- C7 counterexample: with foresight and individual lead time on, lead
times of 2 years and lifetimes of 30 years for both technologies, the code
resolves the averaging window end to `2020 + 2 = 2022` — the share-weighted
average of the LEAD-time scalars — whereas the claim's
`year + avg_lifetime` (the share-weighted average of the lifetime scalars)
is `2020 + 30 = 2050`. -/
theorem C7_counterexample_leadtime_fed_average :
    resolvedAvg flatData2 false 2020 exArgsFL [2, 2] 0 = some (2018, 2022) ∧
    2020 + fetch_avg_lifetime [30, 30] (regionShares flatData2 false 0 2020) = 2050 ∧
    (2022 : ℤ) ≠ 2050 := by
  refine ⟨?_, ?_, ?_⟩ <;> decide

/-- C7 (amended): when foresight and lead_time are both enabled with no
range_time and no duration (and the start/end lookup succeeds), the
averaging window resolves to `[year − avg_leadtime, year + L]` where BOTH
`avg_leadtime` and `L` are production-share-weighted averages of the
per-technology LEAD-time scalars — `L` via `fetch_avg_lifetime` applied to
the lead-time vector (with its fallback to 30 when the weighted sum
truncates to zero), not to the lifetime scalars. -/
theorem C7_avg_window_foresight_leadtime (d : IAMData) (year : ℤ)
    (a : MethodArgs) (lead : List ℚ) (r : Nat)
    (hr : a.range_time = 0) (hd : a.duration = 0)
    (hf : a.foresight = true) (hl : a.lead_time = true)
    (hk : startEndKeyFound a.foresight a.capital_repl_rate a.lead_time
      a.measurement = true) :
    resolvedAvg d false year a lead r =
      some (year - fetch_avg_leadtime lead (regionShares d false r year),
            year + fetch_avg_lifetime lead (regionShares d false r year)) := by
  rw [hf, hl] at hk
  unfold resolvedAvg avgKey
  rw [hr, hd, hf, hl, if_pos hk]
  rfl

/-- C7 witness: the amended window rule instantiated on the constant
two-technology market with foresight and individual lead time on. -/
theorem C7_avg_window_foresight_leadtime_witness :
    resolvedAvg flatData2 false 2020 exArgsFL [2, 2] 0 =
      some (2020 - fetch_avg_leadtime [2, 2] (regionShares flatData2 false 0 2020),
            2020 + fetch_avg_lifetime [2, 2] (regionShares flatData2 false 0 2020)) :=
  C7_avg_window_foresight_leadtime flatData2 2020 exArgsFL [2, 2] 0
    (by decide) (by decide) (by decide) (by decide) (by decide)

/-- C8: `fetch_avg_lifetime` returns 30 whenever the truncated weighted sum
of lifetimes by shares is exactly zero (the falsy case of the Python `or`),
and the truncated weighted sum itself otherwise. -/
theorem C8_avg_lifetime_fallback (lifetime shares : List ℚ) :
    (truncQ (dotQ shares lifetime) = 0 → fetch_avg_lifetime lifetime shares = 30) ∧
    (truncQ (dotQ shares lifetime) ≠ 0 →
      fetch_avg_lifetime lifetime shares = truncQ (dotQ shares lifetime)) := by
  unfold fetch_avg_lifetime
  constructor <;> intro h <;> simp [h]

/-- C8 witness: a zero-lifetime vector falls back to 30; a nonzero weighted
sum (here 2) is returned truncated. -/
theorem C8_avg_lifetime_fallback_witness :
    fetch_avg_lifetime [0] [5] = 30 ∧
    fetch_avg_lifetime [2, 2] [mkRat 1 2, mkRat 1 2] = 2 :=
  ⟨(C8_avg_lifetime_fallback [0] [5]).1 (by decide),
   by rw [(C8_avg_lifetime_fallback [2, 2] [mkRat 1 2, mkRat 1 2]).2 (by decide)]
      decide⟩

/-- One loop pass never touches the caller's array cell. -/
theorem regionLoopMem_dataCell (n : Nat) :
    ∀ m : Mem, (regionLoopMem n m).dataCell = m.dataCell := by
  induction n with
  | zero => intro m; rfl
  | succ k ih => intro m; rw [regionLoopMem, ih]; rfl

/-- Zeroing the constrained slices twice is the same as zeroing them once. -/
theorem remove_constrained_idem (techs : List String) (f : Nat → Nat → ℤ → ℚ) :
    remove_constrained_suppliers techs (remove_constrained_suppliers techs f) =
    remove_constrained_suppliers techs f := by
  funext t r y
  unfold remove_constrained_suppliers
  by_cases h : isConstrained (techs.getD t "") = true
  · simp only [if_pos h]
  · simp only [if_neg h]

/-- The in-place constrained-supplier zeroing is idempotent. -/
theorem zeroStep_idem (m : Mem) : zeroStep (zeroStep m) = zeroStep m := by
  show Mem.mk m.dataCell
      (remove_constrained_suppliers m.dataCell.techs
        (remove_constrained_suppliers m.dataCell.techs m.fullCell)) =
    Mem.mk m.dataCell (remove_constrained_suppliers m.dataCell.techs m.fullCell)
  rw [remove_constrained_idem]

/-- A fixed point of the zeroing pass is a fixed point of the whole loop. -/
theorem regionLoopMem_fix (n : Nat) :
    ∀ m : Mem, zeroStep m = m → regionLoopMem n m = m := by
  induction n with
  | zero => intro m _; rfl
  | succ k ih => intro m h; rw [regionLoopMem, h]; exact ih m h

/-- C9: a `consequential_method` run leaves the caller's input array
unchanged — the supplier-constraint zeroing (applied once per region
iteration) writes only the private interpolated working copy, which after
the run holds exactly the zeroed interpolation of the input. -/
theorem C9_caller_data_not_mutated (d : IAMData) :
    (consequentialMem d).dataCell = d ∧
    (0 < d.numRegions → (consequentialMem d).fullCell =
      remove_constrained_suppliers d.techs (fun t r y => fullVal d t r y)) := by
  constructor
  · unfold consequentialMem
    rw [regionLoopMem_dataCell]
    rfl
  · intro hn
    obtain ⟨k, hk⟩ : ∃ k, d.numRegions = k + 1 := ⟨d.numRegions - 1, by omega⟩
    unfold consequentialMem
    rw [hk, regionLoopMem, regionLoopMem_fix k _ (zeroStep_idem _)]
    rfl

/-- C9 witness: on a market containing a CHP-tagged technology the caller's
cell is unchanged and the working cell holds the zeroed copy. -/
theorem C9_caller_data_not_mutated_witness :
    (consequentialMem chpData).dataCell = chpData ∧
    (consequentialMem chpData).fullCell =
      remove_constrained_suppliers chpData.techs
        (fun t r y => fullVal chpData t r y) :=
  ⟨(C9_caller_data_not_mutated chpData).1,
   (C9_caller_data_not_mutated chpData).2 (by decide)⟩

/-- C10: in the weighted-slope measurement (mode 3) without capital
replacement, a technology whose full-window slope is exactly zero has its
slope ratio masked to 0 (the `np.where(slope == 0, 0, slope / short_slope)`
guard), and its raw measured value `slope + slope * split_year` is 0 — for
every saturation map `smooth`, in particular the source's logistic one. -/
theorem C10_mode3_zero_slope_masked (smooth : ℚ → ℚ) (f : ℤ → ℚ) (s e : ℤ)
    (w0 w1 : ℚ) (h : mode3Slope f s e = 0) :
    mode3X f s e w0 w1 = 0 ∧ mode3RawWith smooth f s e w0 w1 = 0 := by
  have hx : mode3X f s e w0 w1 = 0 := by
    simp only [mode3X]
    rw [if_pos h]
  refine ⟨hx, ?_⟩
  simp only [mode3RawWith]
  rw [h]
  simp [qmul_eq, qadd_eq]

/-- C10 witness: a constant series has slope 0 over the window `[0, 2]`,
its ratio is masked to 0 and its raw measured value is 0. -/
theorem C10_mode3_zero_slope_masked_witness :
    mode3X (fun _ => (5 : ℚ)) 0 2 (mkRat 3 4) 1 = 0 ∧
    mode3RawWith (fun _ => 0) (fun _ => (5 : ℚ)) 0 2 (mkRat 3 4) 1 = 0 :=
  C10_mode3_zero_slope_masked (fun _ => 0) (fun _ => (5 : ℚ)) 0 2 (mkRat 3 4) 1
    (by decide)
